import Mathlib

/-!
Verification of the feature-extraction and heuristic-labeling core of an
injury-prediction pipeline.  The Python scripts are shallowly embedded:
dataframe columns of sensor readings become lists of rational numbers
(exact arithmetic in place of IEEE floats), dataframe rows become
structures, and each script-level function becomes a Lean function over
those structures.  Calendar dates handled as opaque strings by the scripts
stay strings; dates the scripts do day arithmetic on are embedded as
integer day counts.
-/

/-! ## Column statistics (pandas reductions over a numeric column)

A dataframe column is a `List ℚ`.  The reductions below mirror the pandas
calls used by `rolling_window_features.py`: `.mean()`, `.max()`, `.std()`
and `.quantile(0.9)`.
-/

/-- Arithmetic mean of a column, `Series.mean()`.  The scripts only take
means of nonempty columns; the empty case (division by zero, which Lean's
`ℚ` sends to `0`) is never reached under the guards of the callers. -/
def mean (xs : List ℚ) : ℚ := xs.sum / xs.length

/-- Maximum of a column, `Series.max()`.  Only applied to nonempty
columns; `0` stands in for the empty case the callers guard away. -/
def listMax (xs : List ℚ) : ℚ :=
  match xs with
  | [] => 0
  | x :: rest => rest.foldl max x

/-- Sample standard deviation, `Series.std()` (pandas default `ddof=1`):
undefined (`none`, pandas `NaN`) when the column has fewer than two
entries.  The value carried in the `some` case is the sample variance
(the squared standard deviation, the `n - 1` denominator of the source):
the square root of a rational is irrational in general, and every claim
below depends only on whether the statistic is defined, which the square
root does not change. -/
def sampleStd (xs : List ℚ) : Option ℚ :=
  if xs.length ≤ 1 then none
  else some ((xs.map (fun x => (x - mean xs) ^ 2)).sum / ((xs.length : ℚ) - 1))

/-- Quantile with linear interpolation between order statistics,
`Series.quantile(q)` with the default `interpolation='linear'`: on the
sorted column, the value at fractional position `(n - 1) * q`. -/
def quantile (q : ℚ) (xs : List ℚ) : ℚ :=
  let sorted := xs.mergeSort (fun a b => decide (a ≤ b))
  let n := xs.length
  if n = 0 then 0
  else
    let h : ℚ := ((n : ℚ) - 1) * q
    let i : ℕ := (Int.floor h).toNat
    let lo := sorted.getD i 0
    let hi := sorted.getD (min (i + 1) (n - 1)) 0
    lo + (h - (i : ℚ)) * (hi - lo)

/-! ## `rolling_window_features.py` -/

/-- One sensor reading of a session payload's `data` array: the short
field names of the vendor export (`ts` timestamp in seconds, `v` velocity,
`a` acceleration, `pl` cumulative player load, `mp` metabolic power,
`sl` smooth load). -/
structure Sample where
  ts : ℚ
  v : ℚ
  a : ℚ
  pl : ℚ
  mp : ℚ
  sl : ℚ
deriving DecidableEq, Repr

/-- The fixed-shape statistical summary a window produces, the `features`
dict built by `calculate_window_features`.  The two `std` fields are
`Option` because pandas `.std()` is `NaN` on a single-row window. -/
structure WindowFeatures where
  window_minutes : ℚ
  data_points : ℕ
  avg_velocity : ℚ
  max_velocity : ℚ
  std_velocity : Option ℚ
  p90_velocity : ℚ
  avg_acceleration : ℚ
  max_acceleration : ℚ
  std_acceleration : Option ℚ
  p90_acceleration : ℚ
  cumulative_player_load : ℚ
  avg_player_load_rate : ℚ
  avg_metabolic_power : ℚ
  max_metabolic_power : ℚ
  p90_metabolic_power : ℚ
  recent_avg_velocity : ℚ
  recent_max_acceleration : ℚ
  avg_smooth_load : ℚ
deriving DecidableEq, Repr

/-- `df['ts'].iloc[0]`: the first sample's timestamp (`0` for the empty
session the callers guard away). -/
def startTs (df : List Sample) : ℚ := ((df.head?).map Sample.ts).getD 0

/-- `minutes_from_start` of one sample: `(ts - start_ts) / 60`. -/
def minutesFromStart (df : List Sample) (s : Sample) : ℚ :=
  (s.ts - startTs df) / 60

/-- `total_duration = df['minutes_from_start'].max()`. -/
def totalDuration (df : List Sample) : ℚ :=
  listMax (df.map (minutesFromStart df))

/-- `calculate_window_features(df, start_idx, end_idx, window_minutes)`:
statistics over the slice `df.iloc[start_idx:end_idx]`, or `none` when the
slice is empty.  `tail(1200)` is the last (up to) 1200 rows of the window
("recent intensity", the last 2 minutes at the nominal 10 Hz rate). -/
def calculate_window_features (df : List Sample) (start_idx end_idx : ℕ)
    (window_minutes : ℚ) : Option WindowFeatures :=
  let window := (df.drop start_idx).take (end_idx - start_idx)
  if window.isEmpty then none
  else
    let vs := window.map Sample.v
    let accs := window.map Sample.a
    let pls := window.map Sample.pl
    let mps := window.map Sample.mp
    let sls := window.map Sample.sl
    let recent := window.drop (window.length - 1200)
    some
      { window_minutes := window_minutes
        data_points := window.length
        avg_velocity := mean vs
        max_velocity := listMax vs
        std_velocity := sampleStd vs
        p90_velocity := quantile (9 / 10) vs
        avg_acceleration := mean accs
        max_acceleration := listMax accs
        std_acceleration := sampleStd accs
        p90_acceleration := quantile (9 / 10) accs
        cumulative_player_load := pls.getLastD 0
        avg_player_load_rate :=
          if 0 < window_minutes then (pls.getLastD 0 - pls.headD 0) / window_minutes
          else 0
        avg_metabolic_power := mean mps
        max_metabolic_power := listMax mps
        p90_metabolic_power := quantile (9 / 10) mps
        recent_avg_velocity := mean ((recent.map Sample.v))
        recent_max_acceleration := listMax ((recent.map Sample.a))
        avg_smooth_load := mean sls }

/-- `end_idx = (df['minutes_from_start'] <= window_min).sum()`: how many
samples fall inside the window cutoff. -/
def windowEndIdx (df : List Sample) (window_min : ℚ) : ℕ :=
  df.countP (fun s => decide (minutesFromStart df s ≤ window_min))

/-- The per-cutoff body of the loop in `create_rolling_features` (the
WindowFeaturizer step): count the samples whose elapsed minutes are within
the cutoff, skip the cutoff (`continue`) when fewer than 100 samples
qualify, otherwise summarize the slice `df.iloc[0:end_idx]`. -/
def rollingStep (df : List Sample) (window_min : ℚ) : Option WindowFeatures :=
  let end_idx := windowEndIdx df window_min
  if end_idx < 100 then none
  else calculate_window_features df 0 end_idx window_min

/-- The cutoff loop of `create_rolling_features`: one `rollingStep` per
configured interval, stopping (`break`) at the first interval that
exceeds the session's total duration. -/
def create_rolling_features (df : List Sample) (window_intervals : List ℚ) :
    List WindowFeatures :=
  (window_intervals.takeWhile (fun w => decide (w ≤ totalDuration df))).filterMap
    (rollingStep df)

/-! ## `auto_detect_injuries.py` -/

/-- One row of `lightweight_features.csv` as `detect_injuries_on_date`
reads it: per-session summary with the columns the heuristic touches. -/
structure SessionRow where
  date : String
  athlete_id : String
  athlete_name : String
  data_points : ℕ
  duration_minutes : ℚ
deriving DecidableEq, Repr

/-- Why `detect_injuries_on_date` flagged a session.  The `earlyExit`
constructor carries the duration and the day average that the Python
f-string renders into the reason text (`EARLY EXIT (... min vs avg ...
min)`); the rendering itself (fixed-point float formatting) is print-side
and not embedded. -/
inductive DetectReason where
  | noData
  | minimalData
  | earlyExit (duration avg : ℚ)
deriving DecidableEq, Repr

/-- Whether a reason is the early-exit flag. -/
def DetectReason.isEarlyExit : DetectReason → Bool
  | .earlyExit _ _ => true
  | _ => false

/-- One entry of the `injured_athletes` list `detect_injuries_on_date`
builds. -/
structure DetectedInjury where
  athlete_name : String
  athlete_id : String
  reason : DetectReason
  data_points : ℕ
  duration_minutes : ℚ
deriving DecidableEq, Repr

/-- `date_sessions = df[df['date'] == target_date]`. -/
def dateSessions (df : List SessionRow) (target_date : String) : List SessionRow :=
  df.filter (fun s => s.date == target_date)

/-- `avg_duration = date_sessions['duration_minutes'].mean()`. -/
def dayAvgDuration (df : List SessionRow) (target_date : String) : ℚ :=
  mean ((dateSessions df target_date).map SessionRow.duration_minutes)

/-- `detect_injuries_on_date(df, target_date)`: the per-day heuristic.
Empty day short-circuits to no detections; otherwise each session of the
day is flagged NO DATA at zero points, MINIMAL DATA under 1000 points,
or EARLY EXIT when its duration is under half the day average and the day
average exceeds 10 minutes. -/
def detect_injuries_on_date (df : List SessionRow) (target_date : String) :
    List DetectedInjury :=
  let date_sessions := dateSessions df target_date
  if date_sessions.isEmpty then []
  else
    let avg_duration := dayAvgDuration df target_date
    date_sessions.filterMap (fun s =>
      if s.data_points = 0 then
        some ⟨s.athlete_name, s.athlete_id, .noData, 0, 0⟩
      else if s.data_points < 1000 then
        some ⟨s.athlete_name, s.athlete_id, .minimalData, s.data_points,
          s.duration_minutes⟩
      else if s.duration_minutes < avg_duration * (1 / 2) ∧ 10 < avg_duration then
        some ⟨s.athlete_name, s.athlete_id,
          .earlyExit s.duration_minutes avg_duration, s.data_points,
          s.duration_minutes⟩
      else none)

/-- One row of `injury_dates.csv` (also the table
`create_labeled_dataset.py` reads its labels from). -/
structure InjuryDateRow where
  athlete_name : String
  injury_date : String
  injury_type : String
  notes : String
deriving DecidableEq, Repr

/-- What `update_injury_dates_csv` reads out of one detected-injury dict:
the athlete name it assigns and the already-rendered reason string it
writes into `notes`. -/
structure DetectedEntry where
  athlete_name : String
  reason : String
deriving DecidableEq, Repr

/-- Python's substring test `pat in s`. -/
def containsSub (pat s : String) : Bool := decide (pat.toList <:+: s.toList)

/-- `detected_injuries.get(injury_date, [])`: the detections recorded for
a date, defaulting to none. -/
def detectedFor (detected : List (String × List DetectedEntry))
    (injury_date : String) : List DetectedEntry :=
  ((detected.find? (fun p => p.1 == injury_date)).map Prod.snd).getD []

/-- The per-row body of the update loop in `update_injury_dates_csv`:
rows whose current name does not contain `Unknown` are skipped, as are
rows whose date has no detections; a single detection is assigned
outright; with several, the literal `A`/`B` markers in the placeholder
name pick the first or second detection, and a plain `Unknown` placeholder
takes the first detection with a WARNING annotation in `notes`. -/
def updateRow (detected : List (String × List DetectedEntry))
    (row : InjuryDateRow) : InjuryDateRow :=
  if containsSub "Unknown" row.athlete_name = false then row
  else
    let date_injuries := detectedFor detected row.injury_date
    if date_injuries.length = 1 then
      match date_injuries with
      | d :: _ => { row with athlete_name := d.athlete_name, notes := d.reason }
      | [] => row
    else if 1 < date_injuries.length then
      if containsSub "A" row.athlete_name then
        match date_injuries with
        | d :: _ => { row with athlete_name := d.athlete_name, notes := d.reason }
        | [] => row
      else if containsSub "B" row.athlete_name then
        match date_injuries with
        | _ :: d :: _ =>
          { row with athlete_name := d.athlete_name, notes := d.reason }
        | _ => row
      else if containsSub "Unknown" row.athlete_name &&
          !(containsSub "A" row.athlete_name || containsSub "B" row.athlete_name) then
        match date_injuries with
        | d :: _ =>
          { row with
            athlete_name := d.athlete_name
            notes := d.reason ++ " (WARNING: " ++ toString date_injuries.length ++
              " injuries detected on this date)" }
        | [] => row
      else row
    else row

/-- `update_injury_dates_csv(injury_dates_csv, detected_injuries)`: the
whole table after the update loop (the CSV read/write around it is I/O
and not embedded). -/
def update_injury_dates_csv (rows : List InjuryDateRow)
    (detected : List (String × List DetectedEntry)) : List InjuryDateRow :=
  rows.map (updateRow detected)

/-! ## `detect_injuries.py` -/

/-- The per-file heuristic of `analyze_injuries` (the two flagging
branches on one file's byte size and sample count): the reason string
attached to a suspect file, or `none` for a file neither branch flags. -/
def perFileFlag (file_size num_points : ℕ) : Option String :=
  if file_size < 1000 then some "NO DATA (file < 1KB)"
  else if num_points < 100 then
    some ("MINIMAL DATA (" ++ toString num_points ++ " points)")
  else none

/-- One entry of the `injured_candidates` list `analyze_injuries`
accumulates (the fields its dedup-and-sort stage touches). -/
structure Candidate where
  date : String
  athlete_id : String
  athlete_name : String
  activity_id : String
  reason : String
deriving DecidableEq, Repr

/-- The dedup key `(candidate['athlete_id'], candidate['activity_id'])`. -/
def candKey (c : Candidate) : String × String := (c.athlete_id, c.activity_id)

/-- The `seen`-set loop of `analyze_injuries`: keep each candidate whose
key has not appeared before, in order of first appearance. -/
def dedupFirst : List Candidate → List (String × String) → List Candidate
  | [], _ => []
  | c :: rest, seen =>
    if candKey c ∈ seen then dedupFirst rest seen
    else c :: dedupFirst rest (candKey c :: seen)

/-- The comparison behind `sort(key=lambda x: (x['date'],
x['athlete_name']))`: lexicographic on the pair of strings. -/
def candLE (a b : Candidate) : Bool :=
  decide (a.date < b.date ∨ (a.date = b.date ∧ a.athlete_name ≤ b.athlete_name))

/-- Lines 120-129 of `analyze_injuries`: drop duplicate keys keeping the
first-seen candidate, then sort by `(date, athlete_name)` (a stable merge
sort, as Python's list sort is stable). -/
def dedupAndSort (cands : List Candidate) : List Candidate :=
  (dedupFirst cands []).mergeSort candLE

/-! ## `process_injury_dates.py` -/

/-- One injury record after `parse_injury_dates` converted the date
column: the calendar date is embedded as an integer day count, so that
`injury_date - timedelta(days=i)` is integer subtraction. -/
structure ParsedInjury where
  athlete_name : String
  injury_date : ℤ
  injury_type : String
deriving DecidableEq, Repr

/-- One labeled (athlete, date) row `create_date_ranges` emits. -/
structure DateRangeRow where
  athlete_name : String
  date : ℤ
  injury_date : ℤ
  days_until_injury : ℕ
  risk_level : String
deriving DecidableEq, Repr

/-- The risk tier for a day `i` days before the injury: the `if i == 0 /
elif i <= 3 / else` ladder of `create_date_ranges`. -/
def riskLevel (i : ℕ) : String :=
  if i = 0 then "injury_day"
  else if i ≤ 3 then "high_risk"
  else "moderate_risk"

/-- `create_date_ranges(injury_df, lookback_days)`: each injury record
expands into one row per offset `i` in `range(lookback_days, -1, -1)`
(that is `lookback_days` down to `0`), dated `i` days before the injury
and tiered by `riskLevel`. -/
def create_date_ranges (injury_df : List ParsedInjury) (lookback_days : ℕ) :
    List DateRangeRow :=
  injury_df.flatMap (fun inj =>
    ((List.range (lookback_days + 1)).reverse).map (fun (i : ℕ) =>
      { athlete_name := inj.athlete_name
        date := inj.injury_date - (i : ℤ)
        injury_date := inj.injury_date
        days_until_injury := i
        risk_level := riskLevel i }))

/-! ## `create_labeled_dataset.py` and `train_model.py` -/

/-- One row of `rolling_window_features.csv`: a window feature vector
with the session metadata `create_rolling_features` attached to it. -/
structure FeatureRow where
  date : String
  athlete_id : String
  athlete_name : String
  activity_id : String
  features : WindowFeatures
deriving DecidableEq, Repr

/-- A feature row with the `injured` and `risk_level` columns
`create_labeled_dataset` adds: one row of `labeled_training_data.csv`. -/
structure LabeledRow extends FeatureRow where
  injured : Bool
  risk_level : String
deriving DecidableEq, Repr

/-- The `injury_lookup` set: the `(athlete_name, injury_date)` pairs of
`injury_dates.csv` (a list models the Python set; only membership is
used). -/
def injuryLookup (injuries : List InjuryDateRow) : List (String × String) :=
  injuries.map (fun r => (r.athlete_name, r.injury_date))

/-- The per-row labeling of `create_labeled_dataset`: `injured` is the
membership test of the row's `(athlete_name, date)` in the lookup, and
`risk_level` is the `{True: 'injured', False: 'normal'}` mapping of
`injured`. -/
def labelRow (lookup : List (String × String)) (r : FeatureRow) : LabeledRow :=
  { r with
    injured := decide ((r.athlete_name, r.date) ∈ lookup)
    risk_level := if (r.athlete_name, r.date) ∈ lookup then "injured" else "normal" }

/-- `create_labeled_dataset()`: every feature row labeled against the
injury table. -/
def create_labeled_dataset (features : List FeatureRow)
    (injuries : List InjuryDateRow) : List LabeledRow :=
  features.map (labelRow (injuryLookup injuries))

/-- The named training date of `train_injury_model`'s temporal split. -/
def trainDate : String := "2025-01-09"

/-- The named test date of `train_injury_model`'s temporal split. -/
def testDate : String := "2025-01-17"

/-- `train_mask = df['date'] == '2025-01-09'` applied to the rows: the
training partition of the temporal split. -/
def trainRows (df : List LabeledRow) : List LabeledRow :=
  df.filter (fun r => r.date == trainDate)

/-- `test_mask = df['date'] == '2025-01-17'` applied to the rows: the
test partition of the temporal split. -/
def testRows (df : List LabeledRow) : List LabeledRow :=
  df.filter (fun r => r.date == testDate)

/-! ## Concrete inputs used to instantiate the theorems -/

/-- A resting sample at time zero. -/
def sample0 : Sample := ⟨0, 0, 0, 0, 0, 0⟩

/-- A session of 100 identical samples (all at timestamp 0, so the whole
session spans 0 elapsed minutes). -/
def df100 : List Sample := List.replicate 100 sample0

/-- A session of only 5 samples. -/
def df5 : List Sample := List.replicate 5 sample0

/-- A session of 120 one-hertz samples at constant velocity 5. -/
def df120 : List Sample :=
  (List.range 120).map (fun i => ⟨(i : ℚ), 5, 0, 0, 0, 0⟩)

/-- One zero-data session row on a training day. -/
def sessionRow0 : SessionRow := ⟨"2025-01-09", "a1", "Jo Athlete", 0, 0⟩

/-- The detection record `detect_injuries_on_date` emits for
`sessionRow0`. -/
def detected0 : DetectedInjury := ⟨"Jo Athlete", "a1", .noData, 0, 0⟩

/-- Three candidates, the first and third sharing a dedup key. -/
def cands3 : List Candidate :=
  [⟨"2025-01-17", "a1", "Zed", "act9", "NO DATA (file < 1KB)"⟩,
   ⟨"2025-01-09", "a2", "Ann", "act9", "MINIMAL DATA (3 points)"⟩,
   ⟨"2025-01-17", "a1", "Zed", "act9", "EARLY EXIT (5.0 min vs avg 40.0 min)"⟩]

/-- A feature row whose `(athlete_name, date)` pair matches an injury. -/
def featureRow0 : FeatureRow :=
  { date := "2025-01-09"
    athlete_id := "a1"
    athlete_name := "Jo Athlete"
    activity_id := "act9"
    features :=
      { window_minutes := 5, data_points := 3000
        avg_velocity := 2, max_velocity := 7, std_velocity := some 1
        p90_velocity := 6, avg_acceleration := 0, max_acceleration := 3
        std_acceleration := some 1, p90_acceleration := 2
        cumulative_player_load := 100, avg_player_load_rate := 20
        avg_metabolic_power := 4, max_metabolic_power := 11
        p90_metabolic_power := 9, recent_avg_velocity := 2
        recent_max_acceleration := 3, avg_smooth_load := 50 } }

/-- An injury table listing `featureRow0`'s athlete on its date. -/
def injuries0 : List InjuryDateRow :=
  [⟨"Jo Athlete", "2025-01-09", "hamstring", "from report"⟩]

/-- An injury-dates table whose single row has a real athlete name (no
`Unknown` placeholder). -/
def rowsNoPlaceholder : List InjuryDateRow :=
  [⟨"Sam Real", "2025-01-09", "ankle", "confirmed"⟩]

/-- Detections for the date of `rowsNoPlaceholder`'s row. -/
def detectedMap0 : List (String × List DetectedEntry) :=
  [("2025-01-09", [⟨"Jo Athlete", "NO DATA"⟩])]

/-- The default row used to read a table entry by position. -/
def emptyInjuryRow : InjuryDateRow := ⟨"", "", "", ""⟩

/-- The labeled version of `featureRow0` against `injuries0`. -/
def labeledRow0 : LabeledRow :=
  { featureRow0 with injured := true, risk_level := "injured" }

/-! ## Helper lemmas -/

theorem le_foldl_max (l : List ℚ) (acc : ℚ) : acc ≤ l.foldl max acc := by
  induction l generalizing acc with
  | nil => simp
  | cons a t ih => exact le_trans (le_max_left acc a) (ih (max acc a))

theorem le_foldl_max_of_mem {l : List ℚ} {x : ℚ} (acc : ℚ) (hx : x ∈ l) :
    x ≤ l.foldl max acc := by
  induction l generalizing acc with
  | nil => cases hx
  | cons a t ih =>
    rcases List.mem_cons.mp hx with rfl | hmem
    · exact le_trans (le_max_right acc x) (le_foldl_max t (max acc x))
    · exact ih (max acc a) hmem

theorem le_listMax {xs : List ℚ} {x : ℚ} (hx : x ∈ xs) : x ≤ listMax xs := by
  cases xs with
  | nil => cases hx
  | cons a t =>
    rcases List.mem_cons.mp hx with rfl | hmem
    · exact le_foldl_max t x
    · exact le_foldl_max_of_mem a hmem

theorem foldl_max_const {l : List ℚ} {c : ℚ} (h : ∀ x ∈ l, x = c) :
    l.foldl max c = c := by
  induction l with
  | nil => rfl
  | cons a t ih =>
    have ha : a = c := h a (List.mem_cons_self a t)
    have ht : ∀ x ∈ t, x = c := fun x hx => h x (List.mem_cons_of_mem a hx)
    simp [ha, ih ht]

theorem listMax_const {xs : List ℚ} {c : ℚ} (h0 : xs ≠ []) (h : ∀ x ∈ xs, x = c) :
    listMax xs = c := by
  cases xs with
  | nil => exact absurd rfl h0
  | cons a t =>
    have ha : a = c := h a (List.mem_cons_self a t)
    have ht : ∀ x ∈ t, x = c := fun x hx => h x (List.mem_cons_of_mem a hx)
    simp only [listMax]
    rw [ha, foldl_max_const ht]

theorem mean_const {xs : List ℚ} {c : ℚ} (h0 : xs ≠ []) (h : ∀ x ∈ xs, x = c) :
    mean xs = c := by
  have hrep : xs = List.replicate xs.length c := List.eq_replicate_length.mpr h
  have hlen : (xs.length : ℚ) ≠ 0 := by
    have : 0 < xs.length := List.length_pos.mpr h0
    exact_mod_cast Nat.pos_iff_ne_zero.mp this
  unfold mean
  rw [hrep]
  simp only [List.sum_replicate, List.length_replicate, nsmul_eq_mul]
  exact mul_div_cancel_left₀ c hlen

theorem quantile_const {q : ℚ} {xs : List ℚ} {c : ℚ} (h0 : xs ≠ [])
    (hall : ∀ x ∈ xs, x = c) (hq0 : 0 ≤ q) (hq1 : q ≤ 1) :
    quantile q xs = c := by
  have hperm : (xs.mergeSort (fun a b => decide (a ≤ b))).Perm xs :=
    List.mergeSort_perm xs _
  have hsortmem : ∀ y ∈ xs.mergeSort (fun a b => decide (a ≤ b)), y = c :=
    fun y hy => hall y (hperm.mem_iff.mp hy)
  have hsortlen : (xs.mergeSort (fun a b => decide (a ≤ b))).length = xs.length :=
    hperm.length_eq
  have hn : 0 < xs.length := List.length_pos.mpr h0
  have hn1 : (1 : ℚ) ≤ (xs.length : ℚ) := by exact_mod_cast hn
  have hnonneg : (0 : ℚ) ≤ ((xs.length : ℚ) - 1) * q :=
    mul_nonneg (by linarith) hq0
  have hle : ((xs.length : ℚ) - 1) * q ≤ (xs.length : ℚ) - 1 :=
    mul_le_of_le_one_right (by linarith) hq1
  have hfloor : Int.floor (((xs.length : ℚ) - 1) * q) ≤ (xs.length : ℤ) - 1 := by
    have : ((xs.length : ℚ) - 1) = (((xs.length : ℤ) - 1 : ℤ) : ℚ) := by push_cast; ring
    calc Int.floor (((xs.length : ℚ) - 1) * q)
        ≤ Int.floor ((xs.length : ℚ) - 1) := Int.floor_le_floor hle
      _ = (xs.length : ℤ) - 1 := by rw [this, Int.floor_intCast]
  have hi : (Int.floor (((xs.length : ℚ) - 1) * q)).toNat < xs.length := by
    omega
  have hi1 : min ((Int.floor (((xs.length : ℚ) - 1) * q)).toNat + 1)
      (xs.length - 1) < xs.length := by omega
  simp only [quantile]
  rw [if_neg (by omega)]
  rw [List.getD_eq_getElem _ _ (by rw [hsortlen]; exact hi)]
  rw [List.getD_eq_getElem _ _ (by rw [hsortlen]; exact hi1)]
  rw [hsortmem _ (List.getElem_mem _), hsortmem _ (List.getElem_mem _)]
  ring

/-! ## Claim theorems -/

/-- Claim C3: for every sample sequence and cutoff, if the prefix of
samples with elapsed minutes at most the cutoff contains fewer than 100
samples, the featurizer step returns `none` for that cutoff. -/
theorem rollingStep_none_of_under_100_samples (df : List Sample) (cutoff : ℚ)
    (h : windowEndIdx df cutoff < 100) : rollingStep df cutoff = none := by
  simp only [rollingStep]
  rw [if_pos h]

/-- Witness for C3: a five-sample session yields no vector at cutoff 10. -/
theorem rollingStep_none_of_under_100_samples_witness :
    rollingStep df5 10 = none :=
  rollingStep_none_of_under_100_samples df5 10 (by
    norm_num [windowEndIdx, df5, sample0, List.replicate_succ,
      List.countP_cons, List.countP_nil, minutesFromStart, startTs])

/-- Claim C4: the per-file heuristic flags a session exactly when its
byte size is under 1000 or its sample count is under 100, with reason
`NO DATA (file < 1KB)` for a small file and `MINIMAL DATA (N points)`
otherwise. -/
theorem perFileFlag_characterization (file_size num_points : ℕ) :
    ((perFileFlag file_size num_points).isSome = true ↔
      (file_size < 1000 ∨ num_points < 100))
    ∧ (file_size < 1000 →
        perFileFlag file_size num_points = some "NO DATA (file < 1KB)")
    ∧ (1000 ≤ file_size → num_points < 100 →
        perFileFlag file_size num_points =
          some ("MINIMAL DATA (" ++ toString num_points ++ " points)"))
    ∧ (1000 ≤ file_size → 100 ≤ num_points →
        perFileFlag file_size num_points = none) := by
  unfold perFileFlag
  refine ⟨?_, ?_, ?_, ?_⟩ <;> split_ifs with h1 h2 <;> simp_all

/-- Claim C7: with the default 7-day lookback, every injury record
expands into exactly eight rows, one per day offset 0 through 7, with
risk level `injury_day` at offset 0, `high_risk` at offsets 1 to 3 and
`moderate_risk` at offsets 4 to 7. -/
theorem create_date_ranges_default_lookback (injury_df : List ParsedInjury) :
    create_date_ranges injury_df 7 =
      injury_df.flatMap (fun inj =>
        [⟨inj.athlete_name, inj.injury_date - 7, inj.injury_date, 7, "moderate_risk"⟩,
         ⟨inj.athlete_name, inj.injury_date - 6, inj.injury_date, 6, "moderate_risk"⟩,
         ⟨inj.athlete_name, inj.injury_date - 5, inj.injury_date, 5, "moderate_risk"⟩,
         ⟨inj.athlete_name, inj.injury_date - 4, inj.injury_date, 4, "moderate_risk"⟩,
         ⟨inj.athlete_name, inj.injury_date - 3, inj.injury_date, 3, "high_risk"⟩,
         ⟨inj.athlete_name, inj.injury_date - 2, inj.injury_date, 2, "high_risk"⟩,
         ⟨inj.athlete_name, inj.injury_date - 1, inj.injury_date, 1, "high_risk"⟩,
         ⟨inj.athlete_name, inj.injury_date - 0, inj.injury_date, 0, "injury_day"⟩])
    ∧ (create_date_ranges injury_df 7).length = 8 * injury_df.length := by
  constructor
  · rfl
  · induction injury_df with
    | nil => rfl
    | cons a t ih =>
      simp only [create_date_ranges, List.flatMap_cons, List.length_append,
        List.length_map, List.length_reverse, List.length_range,
        List.length_cons] at ih ⊢
      omega

/-- Claim C8: in the temporal split, a row lands in the train partition
iff its date is the named training date, in the test partition iff its
date is the named test date, never in both, and rows matching neither
date land in neither. -/
theorem temporal_split_partition (df : List LabeledRow) (row : LabeledRow) :
    (row ∈ trainRows df ↔ row ∈ df ∧ row.date = trainDate)
    ∧ (row ∈ testRows df ↔ row ∈ df ∧ row.date = testDate)
    ∧ ((row ∈ trainRows df ∧ row ∈ testRows df) ↔ False)
    ∧ (row.date ≠ trainDate → row ∉ trainRows df)
    ∧ (row.date ≠ testDate → row ∉ testRows df) := by
  have htr : row ∈ trainRows df ↔ row ∈ df ∧ row.date = trainDate := by
    simp [trainRows, List.mem_filter]
  have hte : row ∈ testRows df ↔ row ∈ df ∧ row.date = testDate := by
    simp [testRows, List.mem_filter]
  have hne : trainDate ≠ testDate := by decide
  refine ⟨htr, hte, ?_, ?_, ?_⟩
  · constructor
    · rintro ⟨h1, h2⟩
      exact hne (((htr.mp h1).2).symm.trans ((hte.mp h2).2))
    · exact False.elim
  · intro hd hmem
    exact hd (htr.mp hmem).2
  · intro hd hmem
    exact hd (hte.mp hmem).2

/-- Claim C9: a row of the labeled dataset is marked injured exactly when
its `(athlete_name, date)` pair appears in the injury table, and its risk
level is `injured` for a present pair and `normal` for an absent one. -/
theorem labeled_dataset_injured_iff (features : List FeatureRow)
    (injuries : List InjuryDateRow) (r : LabeledRow)
    (hr : r ∈ create_labeled_dataset features injuries) :
    (r.injured = true ↔ (r.athlete_name, r.date) ∈ injuryLookup injuries)
    ∧ r.risk_level =
        (if (r.athlete_name, r.date) ∈ injuryLookup injuries then "injured"
         else "normal") := by
  obtain ⟨x, hx, rfl⟩ := List.mem_map.mp hr
  exact ⟨by simp [labelRow], by simp [labelRow]⟩

/-- Witness for C9: the labeled version of a matching feature row is
injured with risk level `injured`. -/
theorem labeled_dataset_injured_iff_witness :
    (labeledRow0.injured = true ↔
      (labeledRow0.athlete_name, labeledRow0.date) ∈ injuryLookup injuries0)
    ∧ labeledRow0.risk_level =
        (if (labeledRow0.athlete_name, labeledRow0.date) ∈ injuryLookup injuries0
         then "injured" else "normal") :=
  labeled_dataset_injured_iff [featureRow0] injuries0 labeledRow0 (by decide)

/-- Claim C1: when the cutoff exceeds the session's final elapsed minute,
the featurizer's window selection covers the entire sample sequence, and
(given the 100-sample minimum any vector requires) the produced vector
summarizes all samples. -/
theorem rollingStep_whole_session_of_cutoff_gt_duration (df : List Sample)
    (cutoff : ℚ) (hlen : 100 ≤ df.length) (hcut : totalDuration df < cutoff) :
    rollingStep df cutoff = calculate_window_features df 0 df.length cutoff
    ∧ ∃ f, rollingStep df cutoff = some f ∧ f.data_points = df.length := by
  have hall : ∀ s ∈ df, minutesFromStart df s ≤ cutoff := by
    intro s hs
    have h1 : minutesFromStart df s ≤ totalDuration df :=
      le_listMax (List.mem_map_of_mem _ hs)
    linarith
  have hend : windowEndIdx df cutoff = df.length := by
    unfold windowEndIdx
    rw [List.countP_eq_length]
    intro s hs
    exact decide_eq_true (hall s hs)
  have hnot : ¬ windowEndIdx df cutoff < 100 := by omega
  have hne : df ≠ [] := by
    intro hd
    rw [hd] at hlen
    simp at hlen
  have hstep : rollingStep df cutoff =
      calculate_window_features df 0 df.length cutoff := by
    simp only [rollingStep]
    rw [if_neg hnot, hend]
  refine ⟨hstep, ?_⟩
  rw [hstep]
  simp only [calculate_window_features, List.drop_zero, Nat.sub_zero,
    List.take_length]
  rw [if_neg (by simp [List.isEmpty_iff, hne])]
  exact ⟨_, rfl, rfl⟩

/-- Witness for C1: a 100-sample session whose samples all carry the same
timestamp spans 0 elapsed minutes, so cutoff 1 covers all of it. -/
theorem rollingStep_whole_session_witness :
    rollingStep df100 1 = calculate_window_features df100 0 df100.length 1
    ∧ ∃ f, rollingStep df100 1 = some f ∧ f.data_points = df100.length := by
  have hmem : ∀ x ∈ df100.map (minutesFromStart df100), x = 0 := by
    intro x hx
    obtain ⟨s, hs, rfl⟩ := List.mem_map.mp hx
    have hs0 : s = sample0 := List.eq_of_mem_replicate hs
    have hts : startTs df100 = 0 := rfl
    rw [hs0]
    norm_num [minutesFromStart, hts, sample0]
  have h0 : totalDuration df100 = 0 :=
    listMax_const (by simp [df100]) hmem
  exact rollingStep_whole_session_of_cutoff_gt_duration df100 1
    (by simp [df100]) (by rw [h0]; norm_num)

/-- Claim C2: the per-day heuristic never emits an early-exit flag for
any session of a day whose mean duration is at most 10 minutes. -/
theorem detect_no_early_exit_of_low_day_mean (df : List SessionRow)
    (target : String) (h : dayAvgDuration df target ≤ 10) :
    ∀ r ∈ detect_injuries_on_date df target, r.reason.isEarlyExit = false := by
  intro r hr
  simp only [detect_injuries_on_date] at hr
  by_cases he : (dateSessions df target).isEmpty
  · rw [if_pos he] at hr
    cases hr
  · rw [if_neg he] at hr
    obtain ⟨s, hs, hsome⟩ := List.mem_filterMap.mp hr
    by_cases h1 : s.data_points = 0
    · rw [if_pos h1] at hsome
      cases hsome
      rfl
    · rw [if_neg h1] at hsome
      by_cases h2 : s.data_points < 1000
      · rw [if_pos h2] at hsome
        cases hsome
        rfl
      · rw [if_neg h2] at hsome
        by_cases h3 : s.duration_minutes < dayAvgDuration df target * (1 / 2) ∧
            10 < dayAvgDuration df target
        · exact absurd h3.2 (not_lt.mpr h)
        · rw [if_neg h3] at hsome
          cases hsome

/-- Witness for C2: a zero-duration day (mean 0) flags its zero-data
session as NO DATA, not EARLY EXIT. -/
theorem detect_no_early_exit_witness : detected0.reason.isEarlyExit = false :=
  detect_no_early_exit_of_low_day_mean [sessionRow0] "2025-01-09"
    (by norm_num [dayAvgDuration, dateSessions, mean, sessionRow0])
    detected0 (by decide)

/-- Claim C6: over a window whose velocities are all the constant `c`,
the mean, max and 90th percentile of velocity each equal `c`; and the
standard deviation of a one-sample window is missing, not zero. -/
theorem constant_window_stats (df : List Sample) (c wm : ℚ) (s : Sample)
    (h0 : df ≠ []) (hall : ∀ x ∈ df, x.v = c) :
    (∃ f, calculate_window_features df 0 df.length wm = some f ∧
      f.avg_velocity = c ∧ f.max_velocity = c ∧ f.p90_velocity = c)
    ∧ (calculate_window_features [s] 0 1 wm).map WindowFeatures.std_velocity =
        some none := by
  constructor
  · have hvmem : ∀ x ∈ df.map Sample.v, x = c := by
      intro x hx
      obtain ⟨y, hy, rfl⟩ := List.mem_map.mp hx
      exact hall y hy
    have hvne : df.map Sample.v ≠ [] := by
      simpa using h0
    simp only [calculate_window_features, List.drop_zero, Nat.sub_zero,
      List.take_length]
    rw [if_neg (by simp [List.isEmpty_iff, h0])]
    exact ⟨_, rfl, mean_const hvne hvmem, listMax_const hvne hvmem,
      quantile_const hvne hvmem (by norm_num) (by norm_num)⟩
  · rfl

/-- Witness for C6: 120 one-hertz samples at constant velocity 5. -/
theorem constant_window_stats_witness :
    (∃ f, calculate_window_features df120 0 df120.length 2 = some f ∧
      f.avg_velocity = 5 ∧ f.max_velocity = 5 ∧ f.p90_velocity = 5)
    ∧ (calculate_window_features [sample0] 0 1 2).map WindowFeatures.std_velocity =
        some none := by
  refine constant_window_stats df120 5 2 sample0
    (by simp only [df120]; simp; exact ⟨0, by norm_num⟩) ?_
  intro x hx
  obtain ⟨i, hi, rfl⟩ := List.mem_map.mp hx
  rfl

/-- Claim C10: the injury-dates update touches only rows whose current
athlete name contains the substring `Unknown`; every other row comes out
of the update bit-for-bit unchanged (same name, same notes), and the
table keeps its length. -/
theorem update_preserves_non_placeholder_rows (rows : List InjuryDateRow)
    (detected : List (String × List DetectedEntry)) (i : ℕ)
    (h : containsSub "Unknown" ((rows.getD i emptyInjuryRow).athlete_name) = false) :
    (update_injury_dates_csv rows detected).length = rows.length
    ∧ (update_injury_dates_csv rows detected).getD i emptyInjuryRow =
        rows.getD i emptyInjuryRow := by
  refine ⟨by simp [update_injury_dates_csv], ?_⟩
  rw [List.getD_eq_getElem?_getD] at h
  rw [List.getD_eq_getElem?_getD, List.getD_eq_getElem?_getD]
  unfold update_injury_dates_csv
  rw [List.getElem?_map]
  cases hx : rows[i]? with
  | none => simp
  | some r =>
    rw [hx] at h
    simp only [Option.getD_some] at h
    simp only [Option.map_some', Option.getD_some]
    unfold updateRow
    rw [if_pos h]

/-- Witness for C10: a table whose one row names a real athlete is
unchanged by an update that has detections for that row's date. -/
theorem update_preserves_non_placeholder_rows_witness :
    (update_injury_dates_csv rowsNoPlaceholder detectedMap0).length =
      rowsNoPlaceholder.length
    ∧ (update_injury_dates_csv rowsNoPlaceholder detectedMap0).getD 0
        emptyInjuryRow = rowsNoPlaceholder.getD 0 emptyInjuryRow :=
  update_preserves_non_placeholder_rows rowsNoPlaceholder detectedMap0 0
    (by decide)

/-- A key already seen contributes nothing to the deduplicated list. -/
theorem dedupFirst_countP_zero (cands : List Candidate) :
    ∀ (seen : List (String × String)) (k : String × String), k ∈ seen →
      (dedupFirst cands seen).countP (fun c => decide (candKey c = k)) = 0 := by
  induction cands with
  | nil => intro seen k hk; rfl
  | cons a rest ih =>
    intro seen k hk
    simp only [dedupFirst]
    by_cases hm : candKey a ∈ seen
    · rw [if_pos hm]
      exact ih seen k hk
    · rw [if_neg hm]
      rw [List.countP_cons_of_neg]
      · exact ih (candKey a :: seen) k (List.mem_cons_of_mem _ hk)
      · simp only [decide_eq_true_eq]
        intro he
        exact hm (by rwa [he])

/-- A key occurring among the candidates and not yet seen contributes
exactly one entry to the deduplicated list. -/
theorem dedupFirst_countP_one (cands : List Candidate) :
    ∀ (seen : List (String × String)) (k : String × String), k ∉ seen →
      (∃ c ∈ cands, candKey c = k) →
      (dedupFirst cands seen).countP (fun c => decide (candKey c = k)) = 1 := by
  induction cands with
  | nil =>
    intro seen k _ h
    obtain ⟨c, hc, _⟩ := h
    cases hc
  | cons a rest ih =>
    intro seen k hk h
    simp only [dedupFirst]
    by_cases hm : candKey a ∈ seen
    · rw [if_pos hm]
      apply ih seen k hk
      obtain ⟨c, hc, hck⟩ := h
      rcases List.mem_cons.mp hc with rfl | hmem
      · exact absurd (by rwa [hck] at hm) hk
      · exact ⟨c, hmem, hck⟩
    · rw [if_neg hm]
      by_cases hak : candKey a = k
      · rw [List.countP_cons_of_pos _ _ (by simp [hak])]
        rw [dedupFirst_countP_zero rest (candKey a :: seen) k
          (by rw [← hak]; exact List.mem_cons_self _ _)]
      · rw [List.countP_cons_of_neg _ _ (by simp [hak])]
        apply ih (candKey a :: seen) k
        · intro hmem
          rcases List.mem_cons.mp hmem with he | hs
          · exact hak he.symm
          · exact hk hs
        · obtain ⟨c, hc, hck⟩ := h
          rcases List.mem_cons.mp hc with rfl | hmem
          · exact absurd hck hak
          · exact ⟨c, hmem, hck⟩

/-- Every entry of the deduplicated list is the first candidate of the
input carrying its key (and its key was not among the already-seen
ones). -/
theorem dedupFirst_mem_first (cands : List Candidate) :
    ∀ (seen : List (String × String)) (c : Candidate),
      c ∈ dedupFirst cands seen →
      candKey c ∉ seen ∧
        cands.find? (fun x => decide (candKey x = candKey c)) = some c := by
  induction cands with
  | nil => intro seen c hc; cases hc
  | cons a rest ih =>
    intro seen c hc
    simp only [dedupFirst] at hc
    by_cases hm : candKey a ∈ seen
    · rw [if_pos hm] at hc
      obtain ⟨h1, h2⟩ := ih seen c hc
      refine ⟨h1, ?_⟩
      rw [List.find?_cons_of_neg]
      · exact h2
      · simp only [decide_eq_true_eq]
        intro heq
        exact h1 (by rwa [← heq])
    · rw [if_neg hm] at hc
      rcases List.mem_cons.mp hc with rfl | hmem
      · refine ⟨hm, ?_⟩
        rw [List.find?_cons_of_pos _ (by simp)]
      · obtain ⟨h1, h2⟩ := ih (candKey a :: seen) c hmem
        have hne : candKey a ≠ candKey c :=
          fun he => h1 (he ▸ List.mem_cons_self _ _)
        refine ⟨fun hs => h1 (List.mem_cons_of_mem _ hs), ?_⟩
        rw [List.find?_cons_of_neg]
        · exact h2
        · simp [hne]

/-- `candLE` is transitive (lexicographic order on two string fields). -/
theorem candLE_trans (a b c : Candidate) (hab : candLE a b = true)
    (hbc : candLE b c = true) : candLE a c = true := by
  simp only [candLE, decide_eq_true_eq] at hab hbc ⊢
  rcases hab with h1 | ⟨h1, h2⟩
  · rcases hbc with h3 | ⟨h3, h4⟩
    · exact Or.inl (lt_trans h1 h3)
    · exact Or.inl (by rwa [← h3])
  · rcases hbc with h3 | ⟨h3, h4⟩
    · exact Or.inl (by rwa [h1])
    · exact Or.inr ⟨h1.trans h3, le_trans h2 h4⟩

/-- `candLE` is total. -/
theorem candLE_total (a b : Candidate) : (candLE a b || candLE b a) = true := by
  simp only [candLE, Bool.or_eq_true, decide_eq_true_eq]
  rcases lt_trichotomy a.date b.date with h | h | h
  · exact Or.inl (Or.inl h)
  · rcases le_total a.athlete_name b.athlete_name with hn | hn
    · exact Or.inl (Or.inr ⟨h, hn⟩)
    · exact Or.inr (Or.inr ⟨h.symm, hn⟩)
  · exact Or.inr (Or.inl h)

/-- Claim C5: when candidates share a dedup key, the final detected set
keeps exactly one entry per occurring key, that entry is the first-seen
candidate with the key (so it carries the first-seen reason), and the set
is sorted ascending by `(date, athlete_name)`. -/
theorem dedup_keeps_first_seen_sorted (cands : List Candidate)
    (k : String × String) (h : ∃ c ∈ cands, candKey c = k) :
    (dedupAndSort cands).countP (fun c => decide (candKey c = k)) = 1
    ∧ (∀ c ∈ dedupAndSort cands, candKey c = k →
        cands.find? (fun x => decide (candKey x = k)) = some c)
    ∧ List.Pairwise (fun a b => candLE a b = true) (dedupAndSort cands) := by
  have hperm : (dedupAndSort cands).Perm (dedupFirst cands []) :=
    List.mergeSort_perm (dedupFirst cands []) candLE
  refine ⟨?_, ?_, ?_⟩
  · rw [hperm.countP_eq]
    exact dedupFirst_countP_one cands [] k (by simp) h
  · intro c hc hck
    have hmem : c ∈ dedupFirst cands [] := hperm.mem_iff.mp hc
    have hfind := (dedupFirst_mem_first cands [] c hmem).2
    rw [hck] at hfind
    exact hfind
  · exact List.sorted_mergeSort candLE_trans candLE_total (dedupFirst cands [])

/-- Witness for C5: three candidates, the first and third sharing a key,
the duplicate key named concretely. -/
theorem dedup_keeps_first_seen_sorted_witness :
    (dedupAndSort cands3).countP
      (fun c => decide (candKey c = ("a1", "act9"))) = 1
    ∧ (∀ c ∈ dedupAndSort cands3, candKey c = ("a1", "act9") →
        cands3.find? (fun x => decide (candKey x = ("a1", "act9"))) = some c)
    ∧ List.Pairwise (fun a b => candLE a b = true) (dedupAndSort cands3) :=
  dedup_keeps_first_seen_sorted cands3 ("a1", "act9") (by decide)
